import Mathlib

/-!
Shallow embedding of the sqlar archive engine (src/lib.rs, src/extract.rs,
src/create.rs, src/list.rs, src/bin/sqlar.rs).

Bytes are modelled as `List Nat`, SQL values of the `data` column as
`Option (List Nat)` (`none` is SQL NULL), machine integers as `Nat`/`Int`
with explicit range checks where the code performs them.  The external
flate2 zlib library is modelled by its contract: a `Zlib` record carrying a
total deflate transform, a fallible inflate transform, and the library's
round-trip guarantee.  Filesystem state is explicit: a list of objects
keyed by component paths; the OS calls used by the code (`create_dir`,
`File::create`, `set_file_mtime`, `set_permissions`) become explicit state
transformers with the same success/failure conditions.  Panics in the
source (`expect`/`unwrap` on filesystem operations) are modelled as error
results: either way the surrounding iteration aborts.
-/

namespace Sqlar

/-- Decidable equality of fallible results, for evaluating the model on
closed inputs. -/
instance {ε α : Type _} [DecidableEq ε] [DecidableEq α] :
    DecidableEq (Except ε α) := fun a b =>
  match a, b with
  | Except.ok x, Except.ok y =>
    if h : x = y then isTrue (by rw [h])
    else isFalse (fun hh => by cases hh; exact h rfl)
  | Except.error x, Except.error y =>
    if h : x = y then isTrue (by rw [h])
    else isFalse (fun hh => by cases hh; exact h rfl)
  | Except.ok _, Except.error _ => isFalse (fun hh => by cases hh)
  | Except.error _, Except.ok _ => isFalse (fun hh => by cases hh)

/-- The zlib codec provided by the flate2 dependency (external to this
repository), modelled by its contract: `deflate` is the zlib-format
compressor (`ZlibEncoder` writing into a `Vec`, which cannot fail),
`inflate` the decoder (`ZlibDecoder`, which fails on malformed input), and
`inflate_deflate` the round-trip guarantee of the zlib format. -/
structure Zlib where
  deflate : List Nat → List Nat
  inflate : List Nat → Except String (List Nat)
  inflate_deflate : ∀ b, inflate (deflate b) = Except.ok b

/-- A concrete executable `Zlib` instance used to evaluate the model on
closed inputs: it frames a blob by prepending a `0` byte and rejects
inputs that do not carry the frame, mirroring the shape (header + body +
failure on malformed data) of the real codec. -/
def toyZlib : Zlib where
  deflate b := 0 :: b
  inflate l :=
    match l with
    | 0 :: rest => Except.ok rest
    | _ => Except.error "malformed zlib stream"
  inflate_deflate := by intro b; rfl

/-- Smallest value of Rust's `i32` (`ctx.get::<i32>` bound). -/
def i32Min : Int := -2147483648

/-- Largest value of Rust's `i32` (`ctx.get::<i32>` bound). -/
def i32Max : Int := 2147483647

/-- `rusty_sqlar_compress(X)` (src/extract.rs, `sqlar_compress`): for a
blob, compress with zlib and keep the compressed form only when strictly
smaller, otherwise keep the blob; non-blob values (here: NULL) pass
through unchanged. -/
def sqlar_compress (z : Zlib) (v : Option (List Nat)) : Option (List Nat) :=
  match v with
  | some blob =>
    let compressed := z.deflate blob
    if compressed.length < blob.length then some compressed else some blob
  | none => none

/-- `rusty_sqlar_uncompress(X, SZ)` (src/extract.rs, `sqlar_uncompress`):
the size argument is first converted to `i32` (`ctx.get::<i32>(1)?`,
failing outside the `i32` range); a non-positive size returns the value
unchanged; a blob whose length equals the size is returned unchanged;
any other blob is zlib-inflated; non-blob values (NULL) pass through. -/
def sqlar_uncompress (z : Zlib) (v : Option (List Nat)) (sz : Int) :
    Except String (Option (List Nat)) :=
  if sz < i32Min ∨ i32Max < sz then Except.error "integral value out of range"
  else if sz ≤ 0 then Except.ok v
  else
    match v with
    | some blob =>
      if blob.length = sz.toNat then Except.ok (some blob)
      else (z.inflate blob).map some
    | none => Except.ok none

/-- File classification (src/lib.rs, `enum FileType`). -/
inductive FileType where
  | File
  | Dir
  | Unsupported
deriving DecidableEq, Repr

/-- bit mask for the file type bit field (src/lib.rs `S_IFMT`). -/
def S_IFMT : Nat := 0o0170000

/-- regular file (src/lib.rs `S_IFREG`). -/
def S_IFREG : Nat := 0o0100000

/-- directory (src/lib.rs `S_IFDIR`). -/
def S_IFDIR : Nat := 0o0040000

/-- `impl From<u32> for FileType` (src/lib.rs): classify a raw `st_mode`
value by its type bits. -/
def fileTypeOfMode (mode : Nat) : FileType :=
  if mode &&& S_IFMT = S_IFREG then FileType.File
  else if mode &&& S_IFMT = S_IFDIR then FileType.Dir
  else FileType.Unsupported

/-- A filesystem path, as Rust's `Path`: an absolute flag (`is_absolute`,
a leading `/`) plus the list of components. -/
structure SPath where
  abs : Bool
  comps : List String
deriving DecidableEq, Repr

/-- One row of the `sqlar` table (schema in src/lib.rs / src/create.rs):
`name` (primary key), `mode`, `mtime`, `sz`, and the nullable `data`
column (`none` is SQL NULL). -/
structure Row where
  name : SPath
  mode : Nat
  mtime : Int
  sz : Nat
  data : Option (List Nat)
deriving DecidableEq, Repr

/-- `struct Entry` (src/lib.rs). -/
structure Entry where
  name : SPath
  mode : Nat
  filetype : FileType
  mtime : Int
  size : Nat
  compressed_size : Nat
  data : Option (List Nat)
deriving DecidableEq, Repr

/-- The row-to-`Entry` mapping of `with_each_file` (src/lib.rs) /
`iterate` (src/list.rs).  With `decompress` set, the SELECT computes
`rusty_sqlar_uncompress(data, sz)`, whose failure surfaces as a row
error; the closure then masks the raw mode with `0o777`, classifies the
file type from the raw mode, and reads `COALESCE(LENGTH(data), 0)` as
the compressed size.  Without `decompress`, `data` is `None`. -/
def rowToEntry (z : Zlib) (decompress : Bool) (r : Row) : Except String Entry :=
  match (if decompress then sqlar_uncompress z r.data (r.sz : Int) else Except.ok none) with
  | Except.error e => Except.error e
  | Except.ok d =>
    Except.ok
      { name := r.name
        mode := r.mode &&& 0o777
        filetype := fileTypeOfMode r.mode
        mtime := r.mtime
        size := r.sz
        compressed_size := (r.data.map List.length).getD 0
        data := d }

/-- The row loop of `with_each_file` (src/lib.rs) / `iterate`
(src/list.rs): rows are visited in statement order; a row that fails to
decode is returned as an error immediately; otherwise the callback runs,
and a callback error is returned immediately.  The callback is modelled
as a state transformer so that its effects are explicit. -/
def iterate {σ : Type _} (z : Zlib) (decompress : Bool) (rows : List Row)
    (f : Entry → σ → σ × Except String Unit) (s : σ) : σ × Except String Unit :=
  match rows with
  | [] => (s, Except.ok ())
  | r :: rest =>
    match rowToEntry z decompress r with
    | Except.error e => (s, Except.error e)
    | Except.ok entry =>
      match f entry s with
      | (s', Except.ok _) => iterate z decompress rest f s'
      | (s', Except.error e) => (s', Except.error e)

/-- One filesystem object as the `create` walk sees it (src/lib.rs
`create` loop body): the path `WalkDir` reported, the `fs::FileType`
classification, the raw `st_mode` from `metadata.permissions().mode()`,
the modification time in seconds since the epoch as a signed integer,
and — for regular files — the content that was read.  Walk entries that
failed to read (entry, metadata, or content errors) are logged and
skipped by the code, hence absent from this list. -/
structure WalkEntry where
  path : SPath
  ftype : FileType
  mode : Nat
  mtime : Int
  content : List Nat
deriving DecidableEq, Repr

/-- The row `create` (src/lib.rs / src/create.rs) builds and inserts for
one walked object: `ts` is `modified.duration_since(UNIX_EPOCH)` with a
fallback to 0 for pre-epoch times, `data` is the file content for File
entries and the empty vector otherwise, `sz` its length, and the stored
`data` column is `rusty_sqlar_compress(data)`. -/
def mkRow (z : Zlib) (e : WalkEntry) : Row :=
  let ts : Int := if e.mtime < 0 then 0 else e.mtime
  let data : List Nat := if e.ftype = FileType.File then e.content else []
  { name := e.path
    mode := e.mode
    mtime := ts
    sz := data.length
    data := sqlar_compress z (some data) }

/-- The insertion loop of `create`: one `INSERT` per walk entry, in walk
order.  The `name` column is the primary key, so inserting a duplicate
name fails; `db.execute(...)?` propagates that failure, aborting the
loop and leaving the rows inserted so far in the archive. -/
def insertRows (z : Zlib) (walk : List WalkEntry) (acc : List Row) :
    List Row × Option String :=
  match walk with
  | [] => (acc, none)
  | e :: rest =>
    let row := mkRow z e
    if acc.any (fun r => decide (r.name = row.name)) then
      (acc, some "UNIQUE constraint failed: sqlar.name")
    else insertRows z rest (acc ++ [row])

/-- The disk as `create` observes it: archive files by path. -/
abbrev Disk := List (String × List Row)

/-- `create(archive, paths)` (src/lib.rs / src/create.rs): if the archive
path already exists, print a message and return `Ok(())` without touching
the disk; otherwise create the archive file and run the insertion loop,
whose first failure propagates after the earlier rows were written. -/
def createOnDisk (z : Zlib) (disk : Disk) (archive : String)
    (walk : List WalkEntry) : Disk × Except String Unit :=
  if disk.any (fun kv => decide (kv.1 = archive)) then (disk, Except.ok ())
  else
    match insertRows z walk [] with
    | (rows, none) => ((archive, rows) :: disk, Except.ok ())
    | (rows, some e) => ((archive, rows) :: disk, Except.error e)

/-- Kind of a materialized filesystem object. -/
inductive ObjKind where
  | file (data : List Nat)
  | dir
deriving DecidableEq, Repr

/-- One object of the destination filesystem: its path, kind, permission
bits and modification time. -/
structure FsObj where
  path : List String
  kind : ObjKind
  perms : Nat
  mtime : Int
deriving DecidableEq, Repr

/-- Destination filesystem state. -/
abbrev Fs := List FsObj

/-- Whether any object exists at `p`. -/
def hasPath (fs : Fs) (p : List String) : Bool :=
  fs.any (fun o => decide (o.path = p))

/-- Whether a directory exists at `p`. -/
def isDirAt (fs : Fs) (p : List String) : Bool :=
  fs.any (fun o => decide (o.path = p ∧ o.kind = ObjKind.dir))

/-- `fs::create_dir`: fails if the target exists or its parent is not an
existing directory; otherwise creates the directory (initial metadata
zeroed; `extract` overwrites it right after). -/
def createDir (fs : Fs) (p : List String) : Except String Fs :=
  if hasPath fs p then Except.error "File exists"
  else if isDirAt fs p.dropLast then
    Except.ok (fs ++ [{ path := p, kind := ObjKind.dir, perms := 0, mtime := 0 }])
  else Except.error "No such file or directory"

/-- `File::create` followed by `write_all`: fails if the parent is not an
existing directory or the target is a directory; truncates and rewrites
an existing file; otherwise creates the file with the given content. -/
def createFile (fs : Fs) (p : List String) (data : List Nat) : Except String Fs :=
  if isDirAt fs p then Except.error "Is a directory"
  else if isDirAt fs p.dropLast then
    if hasPath fs p then
      Except.ok (fs.map (fun o => if o.path = p then { o with kind := ObjKind.file data } else o))
    else
      Except.ok (fs ++ [{ path := p, kind := ObjKind.file data, perms := 0, mtime := 0 }])
  else Except.error "No such file or directory"

/-- `filetime::set_file_mtime` followed by `set_permissions` (the entry's
mode): updates the object's metadata, failing if the path is missing. -/
def setMeta (fs : Fs) (p : List String) (mtime : Int) (perms : Nat) :
    Except String Fs :=
  if hasPath fs p then
    Except.ok (fs.map (fun o =>
      if o.path = p then { o with mtime := mtime, perms := perms } else o))
  else Except.error "No such file or directory"

/-- The directory chain `fs::create_dir_all(dest)` produces on an empty
filesystem: every nonempty prefix of `dest`, as a directory. -/
def destChain (dest : List String) : Fs :=
  (List.range dest.length).map
    (fun i => { path := dest.take (i + 1), kind := ObjKind.dir, perms := 0, mtime := 0 })

/-- `fs::create_dir_all(dest)`: create the missing directories of the
chain leading to `dest`. -/
def createDirAll (fs : Fs) (dest : List String) : Fs :=
  fs ++ (destChain dest).filter (fun o => ¬ hasPath fs o.path)

/-- The per-entry callback of `extract` (src/lib.rs lines 129-164):
absolute names are skipped with a warning; otherwise the target is
`dest.join(name)`; a Dir entry runs `fs::create_dir`, a File entry runs
`File::create` and writes the decoded payload (nothing when the payload
is NULL), an Unsupported entry is skipped before any metadata is set;
after materialization the mtime and the permission bits are set.  The
source's `expect`/`unwrap` panics on these operations are modelled as
error results: both abort the iteration. -/
def extractEntry (dest : List String) (e : Entry) (fs : Fs) :
    Fs × Except String Unit :=
  if e.name.abs then (fs, Except.ok ())
  else
    let p := dest ++ e.name.comps
    match e.filetype with
    | FileType.Unsupported => (fs, Except.ok ())
    | FileType.Dir =>
      match createDir fs p with
      | Except.error m => (fs, Except.error m)
      | Except.ok fs1 =>
        match setMeta fs1 p e.mtime e.mode with
        | Except.error m => (fs1, Except.error m)
        | Except.ok fs2 => (fs2, Except.ok ())
    | FileType.File =>
      match createFile fs p (e.data.getD []) with
      | Except.error m => (fs, Except.error m)
      | Except.ok fs1 =>
        match setMeta fs1 p e.mtime e.mode with
        | Except.error m => (fs1, Except.error m)
        | Except.ok fs2 => (fs2, Except.ok ())

/-- `extract(path, dest)` (src/lib.rs): create the destination root (and
missing intermediate directories), then iterate all rows in full fetch
mode, materializing each entry. -/
def extract (z : Zlib) (rows : List Row) (dest : List String) (fs0 : Fs) :
    Fs × Except String Unit :=
  iterate z true rows (extractEntry dest) (createDirAll fs0 dest)

/-- The compression ratio the `list` command prints per entry
(src/bin/sqlar.rs): `compressed_size / size * 100` for File entries and
`0.0` for the rest.  The `f64` arithmetic is modelled over `ℚ`; the
claimed values are exact at the printed one-decimal resolution. -/
def listRatio (e : Entry) : ℚ :=
  if e.filetype = FileType.File then
    (e.compressed_size : ℚ) / (e.size : ℚ) * 100
  else 0

/-- Walk-order well-formedness accumulated over a processed segment
`done`: every remaining entry whose name has two or more components is
preceded (in `done` or earlier in the remainder) by a Dir entry at its
parent path.  `WalkDir` yields exactly such orders (parents before
children). -/
def parentsFirstFrom (done : List WalkEntry) : List WalkEntry → Bool
  | [] => true
  | e :: rest =>
    (decide (e.path.comps.length ≤ 1) ||
      done.any (fun d =>
        decide (d.path.comps = e.path.comps.dropLast ∧ d.ftype = FileType.Dir))) &&
    parentsFirstFrom (done ++ [e]) rest

/-- Walk-order well-formedness of a whole walk. -/
def parentsFirst (walk : List WalkEntry) : Bool :=
  parentsFirstFrom [] walk

/-- The destination object extraction is expected to materialize for a
walked File or Dir entry: the same relative name under `dest`, the same
content for files, the permission bits of the original mode, and the
original modification time. -/
def expectedObj (dest : List String) (e : WalkEntry) : FsObj :=
  { path := dest ++ e.path.comps
    kind := if e.ftype = FileType.File then ObjKind.file e.content else ObjKind.dir
    perms := e.mode &&& 0o777
    mtime := e.mtime }

/-- The `Entry` the full-fetch read produces from the row `create` built
for a walked object. -/
def mkEntry (z : Zlib) (e : WalkEntry) : Entry :=
  let data : List Nat := if e.ftype = FileType.File then e.content else []
  { name := e.path
    mode := e.mode &&& 0o777
    filetype := fileTypeOfMode e.mode
    mtime := if e.mtime < 0 then 0 else e.mtime
    size := data.length
    compressed_size := ((sqlar_compress z (some data)).map List.length).getD 0
    data := some data }

/-- Per-object conditions under which the walked object survives the
round trip: a relative, nonempty name; a File or Dir object; mode type
bits agreeing with the walk's classification (as the OS reports them); a
post-epoch modification time (pre-epoch times are stored as 0); and a
content length within the `i32` range of the decompressor. -/
def goodEntry (e : WalkEntry) : Prop :=
  e.path.abs = false ∧ e.path.comps ≠ [] ∧ e.ftype ≠ FileType.Unsupported
  ∧ fileTypeOfMode e.mode = e.ftype ∧ 0 ≤ e.mtime
  ∧ (e.ftype = FileType.File → (e.content.length : Int) ≤ i32Max)

instance (e : WalkEntry) : Decidable (goodEntry e) := by
  unfold goodEntry
  infer_instance

/-- A two-object walk (a directory and a file below it) used to evaluate
the round trip on a closed input. -/
def sampleWalk : List WalkEntry :=
  [⟨⟨false, ["d"]⟩, FileType.Dir, 0o040755, 7, []⟩,
   ⟨⟨false, ["d", "f.txt"]⟩, FileType.File, 0o100644, 9, [104, 105]⟩]

/-! ## Helper lemmas -/

/-- Equation of `sqlar_compress` on blob input. -/
theorem sqlar_compress_blob (z : Zlib) (blob : List Nat) :
    sqlar_compress z (some blob)
      = if (z.deflate blob).length < blob.length then some (z.deflate blob)
        else some blob := rfl

/-- Equation of `sqlar_uncompress` on blob input. -/
theorem sqlar_uncompress_blob (z : Zlib) (blob : List Nat) (sz : Int) :
    sqlar_uncompress z (some blob) sz
      = if sz < i32Min ∨ i32Max < sz then
          Except.error "integral value out of range"
        else if sz ≤ 0 then Except.ok (some blob)
        else if blob.length = sz.toNat then Except.ok (some blob)
        else (z.inflate blob).map some := by
  unfold sqlar_uncompress
  by_cases h1 : sz < i32Min ∨ i32Max < sz
  · rw [if_pos h1]
  · rw [if_neg h1]

/-- Codec round trip for blobs whose length fits in `i32`: decompressing
the stored form at the original length recovers the blob, whichever
branch the size-fallback rule took. -/
theorem uncompress_compress_len (z : Zlib) (b : List Nat)
    (h : (b.length : Int) ≤ i32Max) :
    sqlar_uncompress z (sqlar_compress z (some b)) (b.length : Int)
      = Except.ok (some b) := by
  have hoob : ¬ ((b.length : Int) < i32Min ∨ i32Max < (b.length : Int)) := by
    unfold i32Min i32Max at *; omega
  rw [sqlar_compress_blob]
  by_cases hc : (z.deflate b).length < b.length
  · have hpos : 0 < b.length := Nat.pos_of_ne_zero (by
      intro h0; rw [h0] at hc; exact Nat.not_lt_zero _ hc)
    have hne : (z.deflate b).length ≠ ((b.length : Int)).toNat := by omega
    rw [if_pos hc, sqlar_uncompress_blob, if_neg hoob,
        if_neg (by omega : ¬ ((b.length : Int) ≤ 0)), if_neg hne,
        z.inflate_deflate]
    rfl
  · rw [if_neg hc, sqlar_uncompress_blob, if_neg hoob]
    by_cases h0 : (b.length : Int) ≤ 0
    · rw [if_pos h0]
    · rw [if_neg h0, if_pos (by omega : b.length = ((b.length : Int)).toNat)]

/-! ## Claim theorems -/

/-- C3 (corrected): for every blob, `compress` returns the
zlib-compressed form exactly when strictly smaller, else the blob
unchanged; `decompress(stored, sz)` — provided `sz` fits in `i32`, which
the code checks first and otherwise errors — returns `stored` unchanged
when `sz ≤ 0` or `len stored = sz`, and otherwise returns the result of
zlib-inflating `stored`. -/
theorem codec_functional (z : Zlib) (blob stored : List Nat) (sz : Int)
    (hsz : i32Min ≤ sz ∧ sz ≤ i32Max) :
    (sqlar_compress z (some blob)
      = if (z.deflate blob).length < blob.length then some (z.deflate blob)
        else some blob)
    ∧ ((sz ≤ 0 ∨ (stored.length : Int) = sz) →
        sqlar_uncompress z (some stored) sz = Except.ok (some stored))
    ∧ (0 < sz → (stored.length : Int) ≠ sz →
        sqlar_uncompress z (some stored) sz = (z.inflate stored).map some) := by
  obtain ⟨hlo, hhi⟩ := hsz
  have hoob : ¬ (sz < i32Min ∨ i32Max < sz) := by omega
  refine ⟨sqlar_compress_blob z blob, ?_, ?_⟩
  · rintro (h0 | hlen)
    · rw [sqlar_uncompress_blob, if_neg hoob, if_pos h0]
    · by_cases h0 : sz ≤ 0
      · rw [sqlar_uncompress_blob, if_neg hoob, if_pos h0]
      · rw [sqlar_uncompress_blob, if_neg hoob, if_neg h0,
            if_pos (by omega : stored.length = sz.toNat)]
  · intro hpos hlen
    rw [sqlar_uncompress_blob, if_neg hoob,
        if_neg (by omega : ¬ sz ≤ 0),
        if_neg (by omega : ¬ stored.length = sz.toNat)]

/-- Witness for C3 at concrete inputs: size 2 is in the `i32` range and a
2-byte stored blob at size 2 is returned unchanged. -/
theorem codec_functional_witness :
    (i32Min ≤ (2 : Int) ∧ (2 : Int) ≤ i32Max)
    ∧ sqlar_uncompress toyZlib (some [104, 105]) 2
        = Except.ok (some [104, 105]) :=
  ⟨by decide,
   (codec_functional toyZlib [1] [104, 105] 2 (by decide)).2.1 (Or.inr (by decide))⟩

/-- C3 counterexample: at `originalSize = -2147483649 ≤ 0` the claim
demands that the stored bytes come back unchanged, but the code fails the
`i32` conversion of the size argument first and returns an error. -/
theorem codec_size_range_cx :
    sqlar_uncompress toyZlib (some [1, 2, 3]) (-2147483649)
      ≠ Except.ok (some [1, 2, 3]) := by decide

/-- C2 (corrected): `decompress(compress(x), len(x)) = x` for every byte
sequence whose length fits in `i32`, the range of the decompressor's size
argument — including the empty sequence (size 0 returns the stored bytes,
which the fallback rule kept uncompressed) and incompressible input (the
fallback stores `x` itself and the equal-length check returns it). -/
theorem codec_roundtrip (z : Zlib) (x : List Nat)
    (h : (x.length : Int) ≤ i32Max) :
    sqlar_uncompress z (sqlar_compress z (some x)) (x.length : Int)
      = Except.ok (some x) :=
  uncompress_compress_len z x h

/-- Witness for C2 on the empty sequence. -/
theorem codec_roundtrip_witness :
    (((List.length ([] : List Nat)) : Int) ≤ i32Max)
    ∧ sqlar_uncompress toyZlib (sqlar_compress toyZlib (some []))
        ((List.length ([] : List Nat)) : Int) = Except.ok (some []) :=
  ⟨by decide, codec_roundtrip toyZlib [] (by decide)⟩

/-- The size argument `2^31` is outside the `i32` range, so the
decompressor errors before examining the stored value. -/
theorem uncompress_two_pow_31 (v : Option (List Nat)) :
    sqlar_uncompress toyZlib v ((2 ^ 31 : Nat) : Int)
      = Except.error "integral value out of range" := by
  unfold sqlar_uncompress
  rw [if_pos (by unfold i32Min i32Max; omega :
    ((2 ^ 31 : Nat) : Int) < i32Min ∨ i32Max < ((2 ^ 31 : Nat) : Int))]

/-- C2 counterexample: a sequence of `2^31` bytes has a length outside
the `i32` range, so the decompressor errors on its size argument before
even looking at the stored bytes — the round trip does not return `x`. -/
theorem codec_roundtrip_cx :
    sqlar_uncompress toyZlib
        (sqlar_compress toyZlib (some (List.replicate (2 ^ 31) 0)))
        ((List.replicate (2 ^ 31) (0 : Nat)).length : Int)
      ≠ Except.ok (some (List.replicate (2 ^ 31) 0)) := by
  intro hc
  rw [List.length_replicate, uncompress_two_pow_31] at hc
  exact Except.noConfusion hc

/-- C4: `create` on an archive path that already exists performs zero
writes (the disk is returned unchanged, so the existing file is
byte-for-byte what it was) and returns non-fatal success. -/
theorem create_noclobber (z : Zlib) (disk : Disk) (archive : String)
    (walk : List WalkEntry)
    (h : disk.any (fun kv => decide (kv.1 = archive)) = true) :
    createOnDisk z disk archive walk = (disk, Except.ok ()) := by
  unfold createOnDisk
  rw [if_pos h]

/-- Witness for C4: a disk already holding `a.sqlar`. -/
theorem create_noclobber_witness :
    createOnDisk toyZlib [("a.sqlar", [])] "a.sqlar"
        [⟨⟨false, ["d"]⟩, FileType.Dir, 0o040755, 7, []⟩]
      = ([("a.sqlar", [])], Except.ok ()) :=
  create_noclobber toyZlib [("a.sqlar", [])] "a.sqlar"
    [⟨⟨false, ["d"]⟩, FileType.Dir, 0o040755, 7, []⟩] (by decide)

/-- C5: an entry whose name is an absolute path is skipped during
extraction: the filesystem state is returned unchanged (no file or
directory is created anywhere, inside or outside the destination) and
the iteration continues. -/
theorem extract_skips_absolute (dest : List String) (e : Entry) (fs : Fs)
    (h : e.name.abs = true) :
    extractEntry dest e fs = (fs, Except.ok ()) := by
  unfold extractEntry
  rw [if_pos h]

/-- Witness for C5: an entry named `/etc/passwd`. -/
theorem extract_skips_absolute_witness :
    extractEntry ["out"]
        ⟨⟨true, ["etc", "passwd"]⟩, 0o644, FileType.File, 0, 4, 4, some [1, 2, 3, 4]⟩
        [⟨["out"], ObjKind.dir, 0, 0⟩]
      = ([⟨["out"], ObjKind.dir, 0, 0⟩], Except.ok ()) :=
  extract_skips_absolute ["out"]
    ⟨⟨true, ["etc", "passwd"]⟩, 0o644, FileType.File, 0, 4, 4, some [1, 2, 3, 4]⟩
    [⟨["out"], ObjKind.dir, 0, 0⟩] rfl

/-- C7 (corrected): Directory and Unsupported entries are stored with no
payload bytes and size 0 — but the `data` column holds a zero-length
blob (`vec![]` passed through `rusty_sqlar_compress`, whose fallback
keeps it), not SQL NULL. -/
theorem nonfile_rows_empty_blob (z : Zlib) (e : WalkEntry)
    (h : e.ftype ≠ FileType.File) :
    (mkRow z e).data = some [] ∧ (mkRow z e).sz = 0 := by
  unfold mkRow sqlar_compress
  simp [h]

/-- Witness for C7 on a concrete directory entry. -/
theorem nonfile_rows_empty_blob_witness :
    (mkRow toyZlib ⟨⟨false, ["d"]⟩, FileType.Dir, 0o040755, 7, []⟩).data = some []
    ∧ (mkRow toyZlib ⟨⟨false, ["d"]⟩, FileType.Dir, 0o040755, 7, []⟩).sz = 0 :=
  nonfile_rows_empty_blob toyZlib ⟨⟨false, ["d"]⟩, FileType.Dir, 0o040755, 7, []⟩
    (by decide)

/-- C7 counterexample: the row `create` builds for a directory does not
have NULL in the `data` column — it holds the empty blob. -/
theorem dir_row_not_null_cx :
    (mkRow toyZlib ⟨⟨false, ["d"]⟩, FileType.Dir, 0o040755, 7, []⟩).data ≠ none := by
  decide

/-- C8 (corrected): an `Entry` produced by reading the archive (either
fetch mode) has `mode = raw_mode & 0o777` — only the permission bits; the
file-type bits of the stored mode are consumed into the derived
`filetype` field and stripped from `mode`. -/
theorem entry_mode_masked (z : Zlib) (dec : Bool) (r : Row) (e : Entry)
    (h : rowToEntry z dec r = Except.ok e) :
    e.mode = r.mode &&& 0o777 ∧ e.filetype = fileTypeOfMode r.mode := by
  unfold rowToEntry at h
  split at h
  · exact absurd h (by simp)
  · cases h
    exact ⟨rfl, rfl⟩

/-- Witness for C8 on a concrete row. -/
theorem entry_mode_masked_witness :
    (⟨⟨false, ["f"]⟩, 0o644, FileType.File, 0, 0, 0, none⟩ : Entry).mode
        = 0o100644 &&& 0o777
    ∧ (⟨⟨false, ["f"]⟩, 0o644, FileType.File, 0, 0, 0, none⟩ : Entry).filetype
        = fileTypeOfMode 0o100644 :=
  entry_mode_masked toyZlib false ⟨⟨false, ["f"]⟩, 0o100644, 0, 0, some []⟩
    ⟨⟨false, ["f"]⟩, 0o644, FileType.File, 0, 0, 0, none⟩ (by decide)

/-- C8 counterexample: the row with stored mode `0o100644` (regular file)
yields an `Entry` whose mode `0o644` no longer carries the file-type
bits: masking it with `S_IFMT` gives 0, not `S_IFREG`. -/
theorem entry_mode_typebits_cx :
    rowToEntry toyZlib false ⟨⟨false, ["f"]⟩, 0o100644, 0, 0, some []⟩
      = Except.ok ⟨⟨false, ["f"]⟩, 0o644, FileType.File, 0, 0, 0, none⟩
    ∧ 0o644 &&& S_IFMT ≠ 0o100644 &&& S_IFMT := by decide

/-- C9: the ratio the `list` command prints is
`compressed_size / size * 100` for File entries (40.0 for a 1000-byte
original stored as 400 bytes — see the witness) and `0.0` for Directory
and Unsupported entries. -/
theorem list_ratio_formula (e : Entry) :
    (e.filetype = FileType.File →
      listRatio e = (e.compressed_size : ℚ) * 100 / (e.size : ℚ))
    ∧ (e.filetype ≠ FileType.File → listRatio e = 0) := by
  constructor
  · intro h
    unfold listRatio
    rw [if_pos h]
    ring
  · intro h
    unfold listRatio
    rw [if_neg h]

/-- Witness for C9: a 1000-byte original stored as 400 bytes reports a
ratio of exactly 40. -/
theorem list_ratio_formula_witness :
    listRatio ⟨⟨false, ["b"]⟩, 0o644, FileType.File, 0, 1000, 400, none⟩ = 40 := by
  rw [(list_ratio_formula
    ⟨⟨false, ["b"]⟩, 0o644, FileType.File, 0, 1000, 400, none⟩).1 rfl]
  norm_num

/-! ## Iteration lemmas -/

/-- Step equation of `iterate`: a row that fails to decode stops the loop
with that error, the state untouched. -/
theorem iterate_cons_error {σ : Type _} (z : Zlib) (dec : Bool) (r : Row)
    (rest : List Row) (f : Entry → σ → σ × Except String Unit) (s : σ)
    (msg : String) (hr : rowToEntry z dec r = Except.error msg) :
    iterate z dec (r :: rest) f s = (s, Except.error msg) := by
  unfold iterate
  rw [hr]

/-- Step equation of `iterate`: a decoded row whose callback succeeds
continues the loop from the callback's state. -/
theorem iterate_cons_ok {σ : Type _} (z : Zlib) (dec : Bool) (r : Row)
    (rest : List Row) (f : Entry → σ → σ × Except String Unit)
    (s s' : σ) (entry : Entry)
    (hr : rowToEntry z dec r = Except.ok entry)
    (hf : f entry s = (s', Except.ok ())) :
    iterate z dec (r :: rest) f s = iterate z dec rest f s' := by
  conv_lhs => unfold iterate
  simp only [hr, hf]

/-- Step equation of `iterate`: a decoded row whose callback fails stops
the loop with that error, keeping the callback's state. -/
theorem iterate_cons_fail {σ : Type _} (z : Zlib) (dec : Bool) (r : Row)
    (rest : List Row) (f : Entry → σ → σ × Except String Unit)
    (s s' : σ) (entry : Entry) (msg : String)
    (hr : rowToEntry z dec r = Except.ok entry)
    (hf : f entry s = (s', Except.error msg)) :
    iterate z dec (r :: rest) f s = (s', Except.error msg) := by
  unfold iterate
  simp only [hr, hf]

/-- A successful iteration over a segment composes: iterating the
concatenation continues from the state the segment produced. -/
theorem iterate_ok_append {σ : Type _} (z : Zlib) (dec : Bool)
    (pre rest : List Row) (f : Entry → σ → σ × Except String Unit) (s : σ)
    (h : (iterate z dec pre f s).2 = Except.ok ()) :
    iterate z dec (pre ++ rest) f s
      = iterate z dec rest f (iterate z dec pre f s).1 := by
  induction pre generalizing s with
  | nil => rfl
  | cons r pre ih =>
    cases hr : rowToEntry z dec r with
    | error e =>
      rw [iterate_cons_error z dec r pre f s e hr] at h
      exact absurd h (by simp)
    | ok entry =>
      rcases hfe : f entry s with ⟨s', res⟩
      cases res with
      | error e =>
        rw [iterate_cons_fail z dec r pre f s s' entry e hr hfe] at h
        exact absurd h (by simp)
      | ok u =>
        rw [iterate_cons_ok z dec r pre f s s' entry hr hfe] at h
        rw [List.cons_append,
            iterate_cons_ok z dec r (pre ++ rest) f s s' entry hr hfe,
            iterate_cons_ok z dec r pre f s s' entry hr hfe]
        exact ih s' h

/-- C10: entry iteration visits rows in statement order and stops at the
first failure.  If every row of `pre` decodes and its callback succeeds,
and the next row `r` either fails to decode or decodes to an entry whose
callback fails with `msg`, then the whole iteration equals the iteration
of `pre ++ [r]` alone — the rows of `post` are never decoded and their
callbacks never run — and it returns `msg`, with the callback effects of
`pre` (and of `r`'s failing callback) retained in the final state. -/
theorem iterate_first_failure {σ : Type _} (z : Zlib) (dec : Bool)
    (pre post : List Row) (r : Row)
    (f : Entry → σ → σ × Except String Unit) (s : σ) (msg : String)
    (hpre : (iterate z dec pre f s).2 = Except.ok ())
    (hfail : rowToEntry z dec r = Except.error msg ∨
      ∃ entry, rowToEntry z dec r = Except.ok entry ∧
        (f entry (iterate z dec pre f s).1).2 = Except.error msg) :
    iterate z dec (pre ++ r :: post) f s = iterate z dec (pre ++ [r]) f s
    ∧ (iterate z dec (pre ++ r :: post) f s).2 = Except.error msg := by
  rw [iterate_ok_append z dec pre (r :: post) f s hpre,
      iterate_ok_append z dec pre [r] f s hpre]
  rcases hfail with hr | ⟨entry, hr, hf⟩
  · rw [iterate_cons_error z dec r post f _ msg hr,
        iterate_cons_error z dec r [] f _ msg hr]
    exact ⟨rfl, rfl⟩
  · rcases hp : f entry (iterate z dec pre f s).1 with ⟨s2, res⟩
    rw [hp] at hf
    have hres : res = Except.error msg := hf
    subst hres
    rw [iterate_cons_fail z dec r post f _ s2 entry msg hr hp,
        iterate_cons_fail z dec r [] f _ s2 entry msg hr hp]
    exact ⟨rfl, rfl⟩

/-- Witness for C10: the middle row stores 2 bytes against a recorded
size of 9, so its decode (zlib inflate) fails; the iteration returns that
error, ignores the following row, and keeps the effect (a counter bump)
of the first row's callback. -/
theorem iterate_first_failure_witness :
    iterate toyZlib true
        ([⟨⟨false, ["d"]⟩, 0o040755, 7, 0, some []⟩] ++
          ⟨⟨false, ["f"]⟩, 0o100644, 5, 9, some [1, 2]⟩ ::
          [⟨⟨false, ["g"]⟩, 0o100644, 5, 0, some []⟩])
        (fun (_ : Entry) (n : Nat) => (n + 1, Except.ok ())) 0
      = iterate toyZlib true
          ([⟨⟨false, ["d"]⟩, 0o040755, 7, 0, some []⟩] ++
            [⟨⟨false, ["f"]⟩, 0o100644, 5, 9, some [1, 2]⟩])
          (fun (_ : Entry) (n : Nat) => (n + 1, Except.ok ())) 0
    ∧ (iterate toyZlib true
        ([⟨⟨false, ["d"]⟩, 0o040755, 7, 0, some []⟩] ++
          ⟨⟨false, ["f"]⟩, 0o100644, 5, 9, some [1, 2]⟩ ::
          [⟨⟨false, ["g"]⟩, 0o100644, 5, 0, some []⟩])
        (fun (_ : Entry) (n : Nat) => (n + 1, Except.ok ())) 0).2
      = Except.error "malformed zlib stream" :=
  iterate_first_failure toyZlib true
    [⟨⟨false, ["d"]⟩, 0o040755, 7, 0, some []⟩]
    [⟨⟨false, ["g"]⟩, 0o100644, 5, 0, some []⟩]
    ⟨⟨false, ["f"]⟩, 0o100644, 5, 9, some [1, 2]⟩
    (fun (_ : Entry) (n : Nat) => (n + 1, Except.ok ())) 0
    "malformed zlib stream" (by decide) (Or.inl (by decide))

/-- C6: during extraction, a failure materializing an entry (creating its
directory or file, or setting its metadata) aborts the entire
extraction: the run equals the run without the following rows (no later
entry is materialized, entries already materialized are kept), and the
failure message surfaces as the result. -/
theorem extract_fail_fast (z : Zlib) (dest : List String) (fs0 : Fs)
    (pre post : List Row) (r : Row) (entry : Entry) (msg : String)
    (hpre : (iterate z true pre (extractEntry dest)
        (createDirAll fs0 dest)).2 = Except.ok ())
    (hent : rowToEntry z true r = Except.ok entry)
    (hfail : (extractEntry dest entry
        (iterate z true pre (extractEntry dest) (createDirAll fs0 dest)).1).2
      = Except.error msg) :
    extract z (pre ++ r :: post) dest fs0 = extract z (pre ++ [r]) dest fs0
    ∧ (extract z (pre ++ r :: post) dest fs0).2 = Except.error msg := by
  unfold extract
  exact iterate_first_failure z true pre post r (extractEntry dest)
    (createDirAll fs0 dest) msg hpre (Or.inr ⟨entry, hent, hfail⟩)

/-- Witness for C6: the second row names directory `x/y` whose parent
`x` was never created, so `fs::create_dir` fails; the extraction aborts
with that error and the third row's file is never created. -/
theorem extract_fail_fast_witness :
    extract toyZlib
        ([⟨⟨false, ["d"]⟩, 0o040755, 7, 0, some []⟩] ++
          ⟨⟨false, ["x", "y"]⟩, 0o040755, 1, 0, some []⟩ ::
          [⟨⟨false, ["g"]⟩, 0o100644, 5, 0, some []⟩]) ["out"] []
      = extract toyZlib
          ([⟨⟨false, ["d"]⟩, 0o040755, 7, 0, some []⟩] ++
            [⟨⟨false, ["x", "y"]⟩, 0o040755, 1, 0, some []⟩]) ["out"] []
    ∧ (extract toyZlib
        ([⟨⟨false, ["d"]⟩, 0o040755, 7, 0, some []⟩] ++
          ⟨⟨false, ["x", "y"]⟩, 0o040755, 1, 0, some []⟩ ::
          [⟨⟨false, ["g"]⟩, 0o100644, 5, 0, some []⟩]) ["out"] []).2
      = Except.error "No such file or directory" :=
  extract_fail_fast toyZlib ["out"] []
    [⟨⟨false, ["d"]⟩, 0o040755, 7, 0, some []⟩]
    [⟨⟨false, ["g"]⟩, 0o100644, 5, 0, some []⟩]
    ⟨⟨false, ["x", "y"]⟩, 0o040755, 1, 0, some []⟩
    ⟨⟨false, ["x", "y"]⟩, 0o755, FileType.Dir, 1, 0, 0, some []⟩
    "No such file or directory" (by decide) (by decide) (by decide)

/-! ## Round-trip helper lemmas -/

theorem hasPath_eq_false_iff (fs : Fs) (p : List String) :
    hasPath fs p = false ↔ ∀ o ∈ fs, o.path ≠ p := by
  unfold hasPath
  rw [List.any_eq_false]
  simp

theorem hasPath_append (fs1 fs2 : Fs) (p : List String) :
    hasPath (fs1 ++ fs2) p = (hasPath fs1 p || hasPath fs2 p) := by
  unfold hasPath
  rw [List.any_append]

theorem isDirAt_append (fs1 fs2 : Fs) (p : List String) :
    isDirAt (fs1 ++ fs2) p = (isDirAt fs1 p || isDirAt fs2 p) := by
  unfold isDirAt
  rw [List.any_append]

theorem isDirAt_hasPath (fs : Fs) (p : List String)
    (h : isDirAt fs p = true) : hasPath fs p = true := by
  unfold isDirAt at h
  unfold hasPath
  rw [List.any_eq_true] at h ⊢
  obtain ⟨o, ho, hdec⟩ := h
  exact ⟨o, ho, by simp_all [of_decide_eq_true hdec]⟩

theorem createDirAll_nil (dest : List String) :
    createDirAll [] dest = destChain dest := by
  unfold createDirAll hasPath
  simp

theorem destChain_path_short {dest : List String} {o : FsObj}
    (h : o ∈ destChain dest) : o.path.length ≤ dest.length := by
  unfold destChain at h
  rw [List.mem_map] at h
  obtain ⟨i, _, rfl⟩ := h
  simp [List.length_take]

theorem isDirAt_destChain (dest : List String) (h : dest ≠ []) :
    isDirAt (destChain dest) dest = true := by
  have hpos : 0 < dest.length := List.length_pos.2 h
  unfold isDirAt destChain
  rw [List.any_eq_true]
  refine ⟨⟨dest, ObjKind.dir, 0, 0⟩, ?_, by simp⟩
  rw [List.mem_map]
  refine ⟨dest.length - 1, by rw [List.mem_range]; omega, ?_⟩
  have hlen : dest.length - 1 + 1 = dest.length := by omega
  rw [hlen, List.take_length]

theorem expectedObj_path (dest : List String) (e : WalkEntry) :
    (expectedObj dest e).path = dest ++ e.path.comps := rfl

/-- The target of a fresh entry is absent from the accumulated
destination filesystem. -/
theorem hasPath_inv_false (dest : List String) (done : List WalkEntry)
    (comps : List String) (hne : comps ≠ [])
    (hfresh : ∀ d ∈ done, d.path.comps ≠ comps) :
    hasPath (destChain dest ++ done.map (expectedObj dest)) (dest ++ comps)
      = false := by
  rw [hasPath_append, Bool.or_eq_false_iff]
  constructor
  · rw [hasPath_eq_false_iff]
    intro o ho heq
    have h1 : o.path.length ≤ dest.length := destChain_path_short ho
    have h2 : 0 < comps.length := List.length_pos.2 hne
    rw [heq, List.length_append] at h1
    omega
  · rw [hasPath_eq_false_iff]
    intro o ho heq
    rw [List.mem_map] at ho
    obtain ⟨d, hd, rfl⟩ := ho
    rw [expectedObj_path] at heq
    exact hfresh d hd (List.append_cancel_left heq)

/-- A directory entry already materialized is a directory of the
accumulated destination filesystem. -/
theorem isDirAt_inv_done (dest : List String) (done : List WalkEntry)
    (d : WalkEntry) (hd : d ∈ done) (hdir : d.ftype = FileType.Dir) :
    isDirAt (destChain dest ++ done.map (expectedObj dest))
      (dest ++ d.path.comps) = true := by
  rw [isDirAt_append, Bool.or_eq_true]
  right
  unfold isDirAt
  rw [List.any_eq_true]
  refine ⟨expectedObj dest d, List.mem_map_of_mem _ hd, ?_⟩
  rw [decide_eq_true_eq]
  refine ⟨rfl, ?_⟩
  unfold expectedObj
  simp [hdir]

theorem isDirAt_inv_dest (dest : List String) (done : List WalkEntry)
    (h : dest ≠ []) :
    isDirAt (destChain dest ++ done.map (expectedObj dest)) dest = true := by
  rw [isDirAt_append, Bool.or_eq_true]
  exact Or.inl (isDirAt_destChain dest h)

theorem createDir_fresh (fs : Fs) (p : List String)
    (h1 : hasPath fs p = false) (h2 : isDirAt fs p.dropLast = true) :
    createDir fs p
      = Except.ok (fs ++ [{ path := p, kind := ObjKind.dir, perms := 0, mtime := 0 }]) := by
  unfold createDir
  rw [if_neg (by simp [h1]), if_pos h2]

theorem createFile_fresh (fs : Fs) (p : List String) (data : List Nat)
    (h1 : hasPath fs p = false) (h2 : isDirAt fs p.dropLast = true) :
    createFile fs p data
      = Except.ok (fs ++ [{ path := p, kind := ObjKind.file data, perms := 0, mtime := 0 }]) := by
  have hd : ¬ isDirAt fs p = true := by
    intro hc
    rw [isDirAt_hasPath fs p hc] at h1
    exact Bool.noConfusion h1
  unfold createFile
  rw [if_neg hd, if_pos h2, if_neg (by simp [h1])]

theorem map_setMeta_id (fs : Fs) (p : List String) (mt : Int) (pm : Nat)
    (h : hasPath fs p = false) :
    fs.map (fun o => if o.path = p then { o with mtime := mt, perms := pm } else o)
      = fs := by
  induction fs with
  | nil => rfl
  | cons o fs ih =>
    rw [hasPath_eq_false_iff] at h
    have ho : o.path ≠ p := h o (by simp)
    have hfs : hasPath fs p = false := by
      rw [hasPath_eq_false_iff]
      intro o' ho'
      exact h o' (by simp [ho'])
    simp [ho, ih hfs]

theorem setMeta_fresh (fs : Fs) (p : List String) (k : ObjKind)
    (mt : Int) (pm : Nat) (h : hasPath fs p = false) :
    setMeta (fs ++ [{ path := p, kind := k, perms := 0, mtime := 0 }]) p mt pm
      = Except.ok (fs ++ [{ path := p, kind := k, perms := pm, mtime := mt }]) := by
  unfold setMeta
  rw [if_pos (by rw [hasPath_append]; unfold hasPath; simp)]
  rw [List.map_append, map_setMeta_id fs p mt pm h]
  simp

theorem mkRow_data (z : Zlib) (e : WalkEntry) :
    (mkRow z e).data
      = sqlar_compress z (some (if e.ftype = FileType.File then e.content else [])) := rfl

theorem mkRow_sz (z : Zlib) (e : WalkEntry) :
    (mkRow z e).sz = (if e.ftype = FileType.File then e.content else []).length := rfl

theorem mkEntry_name (z : Zlib) (e : WalkEntry) : (mkEntry z e).name = e.path := rfl

theorem mkEntry_mode (z : Zlib) (e : WalkEntry) :
    (mkEntry z e).mode = e.mode &&& 0o777 := rfl

theorem mkEntry_filetype (z : Zlib) (e : WalkEntry) :
    (mkEntry z e).filetype = fileTypeOfMode e.mode := rfl

theorem mkEntry_mtime (z : Zlib) (e : WalkEntry) :
    (mkEntry z e).mtime = (if e.mtime < 0 then 0 else e.mtime) := rfl

theorem mkEntry_data (z : Zlib) (e : WalkEntry) :
    (mkEntry z e).data
      = some (if e.ftype = FileType.File then e.content else []) := rfl

/-- Decoding a row in full fetch mode when the stored payload
decompresses to `d`. -/
theorem rowToEntry_ok (z : Zlib) (r : Row) (d : Option (List Nat))
    (h : sqlar_uncompress z r.data (r.sz : Int) = Except.ok d) :
    rowToEntry z true r = Except.ok
      { name := r.name
        mode := r.mode &&& 0o777
        filetype := fileTypeOfMode r.mode
        mtime := r.mtime
        size := r.sz
        compressed_size := (r.data.map List.length).getD 0
        data := d } := by
  unfold rowToEntry
  rw [if_pos rfl, h]

/-- Reading back, in full fetch mode, the row `create` built for a
walked object whose payload length fits in `i32` yields exactly the
entry `mkEntry` describes. -/
theorem rowToEntry_mkRow (z : Zlib) (e : WalkEntry)
    (hsz : (((if e.ftype = FileType.File then e.content else []) : List Nat).length : Int)
      ≤ i32Max) :
    rowToEntry z true (mkRow z e) = Except.ok (mkEntry z e) :=
  rowToEntry_ok z (mkRow z e)
    (some (if e.ftype = FileType.File then e.content else []))
    (uncompress_compress_len z _ hsz)

/-- Step equation of `extractEntry` for a Dir entry whose directory
creation and metadata update both succeed. -/
theorem extractEntry_dir_eq (dest : List String) (e : Entry) (fs : Fs)
    (h1 : e.name.abs = false) (h2 : e.filetype = FileType.Dir)
    (fs1 : Fs) (hc : createDir fs (dest ++ e.name.comps) = Except.ok fs1)
    (fs2 : Fs)
    (hm : setMeta fs1 (dest ++ e.name.comps) e.mtime e.mode = Except.ok fs2) :
    extractEntry dest e fs = (fs2, Except.ok ()) := by
  unfold extractEntry
  simp only [h1, Bool.false_eq_true, if_false, h2, hc, hm]

/-- Step equation of `extractEntry` for a File entry whose file creation
and metadata update both succeed. -/
theorem extractEntry_file_eq (dest : List String) (e : Entry) (fs : Fs)
    (h1 : e.name.abs = false) (h2 : e.filetype = FileType.File)
    (fs1 : Fs)
    (hc : createFile fs (dest ++ e.name.comps) (e.data.getD []) = Except.ok fs1)
    (fs2 : Fs)
    (hm : setMeta fs1 (dest ++ e.name.comps) e.mtime e.mode = Except.ok fs2) :
    extractEntry dest e fs = (fs2, Except.ok ()) := by
  unfold extractEntry
  simp only [h1, Bool.false_eq_true, if_false, h2, hc, hm]

/-- Materializing the entry of a fresh, well-parented walked object
extends the accumulated destination filesystem by exactly the expected
object. -/
theorem extractEntry_mkEntry (z : Zlib) (dest : List String)
    (done : List WalkEntry) (e : WalkEntry)
    (hdest : dest ≠ [])
    (habs : e.path.abs = false)
    (hcne : e.path.comps ≠ [])
    (hft : e.ftype ≠ FileType.Unsupported)
    (hmode : fileTypeOfMode e.mode = e.ftype)
    (hmt : 0 ≤ e.mtime)
    (hfresh : ∀ d ∈ done, d.path.comps ≠ e.path.comps)
    (hpar : e.path.comps.length ≤ 1 ∨
      ∃ d ∈ done, d.path.comps = e.path.comps.dropLast ∧ d.ftype = FileType.Dir) :
    extractEntry dest (mkEntry z e) (destChain dest ++ done.map (expectedObj dest))
      = ((destChain dest ++ done.map (expectedObj dest)) ++ [expectedObj dest e],
         Except.ok ()) := by
  have hparent : isDirAt (destChain dest ++ done.map (expectedObj dest))
      (dest ++ e.path.comps).dropLast = true := by
    rcases hpar with hle | ⟨d, hd, hdl, hdir⟩
    · obtain ⟨c, hc⟩ : ∃ c, e.path.comps = [c] := by
        cases hcomps : e.path.comps with
        | nil => exact absurd hcomps hcne
        | cons c t =>
          cases t with
          | nil => exact ⟨c, rfl⟩
          | cons x xs => rw [hcomps] at hle; simp at hle
      rw [hc]
      rw [show dest ++ [c] = dest ++ [c] from rfl, List.dropLast_concat]
      exact isDirAt_inv_dest dest done hdest
    · rw [List.dropLast_append_of_ne_nil _ hcne, ← hdl]
      exact isDirAt_inv_done dest done d hd hdir
  have htarget : hasPath (destChain dest ++ done.map (expectedObj dest))
      (dest ++ e.path.comps) = false :=
    hasPath_inv_false dest done e.path.comps hcne hfresh
  have hmt' : (if e.mtime < 0 then 0 else e.mtime) = e.mtime := if_neg (by omega)
  have habs' : (mkEntry z e).name.abs = false := habs
  set fs := destChain dest ++ done.map (expectedObj dest) with hfsdef
  cases hcase : e.ftype with
  | Unsupported => exact absurd hcase hft
  | Dir =>
    have hflt : (mkEntry z e).filetype = FileType.Dir := by
      rw [mkEntry_filetype, hmode, hcase]
    have hc : createDir fs (dest ++ (mkEntry z e).name.comps)
        = Except.ok (fs ++
            [⟨dest ++ (mkEntry z e).name.comps, ObjKind.dir, 0, 0⟩]) :=
      createDir_fresh _ _ htarget hparent
    have hm : setMeta
        (fs ++ [⟨dest ++ (mkEntry z e).name.comps, ObjKind.dir, 0, 0⟩])
        (dest ++ (mkEntry z e).name.comps) (mkEntry z e).mtime (mkEntry z e).mode
        = Except.ok (fs ++ [⟨dest ++ (mkEntry z e).name.comps, ObjKind.dir,
            (mkEntry z e).mode, (mkEntry z e).mtime⟩]) :=
      setMeta_fresh _ _ ObjKind.dir _ _ htarget
    rw [extractEntry_dir_eq dest (mkEntry z e) fs habs' hflt _ hc _ hm]
    unfold expectedObj
    simp [hcase, mkEntry_name, mkEntry_mode, mkEntry_mtime, hmt']
  | File =>
    have hflt : (mkEntry z e).filetype = FileType.File := by
      rw [mkEntry_filetype, hmode, hcase]
    have hc : createFile fs (dest ++ (mkEntry z e).name.comps)
        ((mkEntry z e).data.getD [])
        = Except.ok (fs ++ [⟨dest ++ (mkEntry z e).name.comps,
            ObjKind.file ((mkEntry z e).data.getD []), 0, 0⟩]) :=
      createFile_fresh _ _ _ htarget hparent
    have hm : setMeta (fs ++ [⟨dest ++ (mkEntry z e).name.comps,
          ObjKind.file ((mkEntry z e).data.getD []), 0, 0⟩])
        (dest ++ (mkEntry z e).name.comps) (mkEntry z e).mtime (mkEntry z e).mode
        = Except.ok (fs ++ [⟨dest ++ (mkEntry z e).name.comps,
            ObjKind.file ((mkEntry z e).data.getD []),
            (mkEntry z e).mode, (mkEntry z e).mtime⟩]) :=
      setMeta_fresh _ _ (ObjKind.file ((mkEntry z e).data.getD [])) _ _ htarget
    rw [extractEntry_file_eq dest (mkEntry z e) fs habs' hflt _ hc _ hm]
    unfold expectedObj
    simp [hcase, mkEntry_name, mkEntry_mode, mkEntry_mtime, mkEntry_data, hmt']

theorem mkRow_name (z : Zlib) (e : WalkEntry) : (mkRow z e).name = e.path := rfl

/-- The extraction loop over the rows of a well-formed walk remainder
extends the accumulated destination filesystem by exactly the expected
objects, in order, and succeeds. -/
theorem extract_loop (z : Zlib) (dest : List String) (hdest : dest ≠ []) :
    ∀ (rest done : List WalkEntry),
      (∀ e ∈ done ++ rest, goodEntry e) →
      ((done ++ rest).map (fun e => e.path.comps)).Nodup →
      parentsFirstFrom done rest = true →
      iterate z true (rest.map (mkRow z)) (extractEntry dest)
          (destChain dest ++ done.map (expectedObj dest))
        = (destChain dest ++ (done ++ rest).map (expectedObj dest),
           Except.ok ()) := by
  intro rest
  induction rest with
  | nil =>
    intro done hall hnd hpf
    simp [iterate]
  | cons e rest ih =>
    intro done hall hnd hpf
    unfold parentsFirstFrom at hpf
    rw [Bool.and_eq_true] at hpf
    obtain ⟨hcond, hpf'⟩ := hpf
    obtain ⟨habs, hcne, hft, hmode, hmt, hszf⟩ : goodEntry e :=
      hall e (by simp)
    have hnd1 : (done.map (fun x => x.path.comps) ++
        e.path.comps :: rest.map (fun x => x.path.comps)).Nodup := by
      simpa using hnd
    rw [List.nodup_middle, List.nodup_cons] at hnd1
    obtain ⟨hnotmem, _⟩ := hnd1
    have hfresh : ∀ d ∈ done, d.path.comps ≠ e.path.comps := by
      intro d hd heq
      apply hnotmem
      rw [List.mem_append]
      left
      rw [List.mem_map]
      exact ⟨d, hd, heq⟩
    have hpar : e.path.comps.length ≤ 1 ∨
        ∃ d ∈ done, d.path.comps = e.path.comps.dropLast
          ∧ d.ftype = FileType.Dir := by
      rw [Bool.or_eq_true] at hcond
      rcases hcond with h | h
      · exact Or.inl (of_decide_eq_true h)
      · right
        rw [List.any_eq_true] at h
        obtain ⟨d, hd, hdec⟩ := h
        obtain ⟨h1, h2⟩ := of_decide_eq_true hdec
        exact ⟨d, hd, h1, h2⟩
    have hsz : (((if e.ftype = FileType.File then e.content else []) :
        List Nat).length : Int) ≤ i32Max := by
      by_cases hf : e.ftype = FileType.File
      · rw [if_pos hf]
        exact hszf hf
      · rw [if_neg hf]
        unfold i32Max
        norm_num
    rw [List.map_cons,
        iterate_cons_ok z true (mkRow z e) (rest.map (mkRow z))
          (extractEntry dest) _ _ (mkEntry z e) (rowToEntry_mkRow z e hsz)
          (extractEntry_mkEntry z dest done e hdest habs hcne hft hmode hmt
            hfresh hpar)]
    have heq : (done ++ [e]) ++ rest = done ++ e :: rest := by
      rw [List.append_assoc]
      rfl
    have hall' : ∀ x ∈ (done ++ [e]) ++ rest, goodEntry x := by
      rw [heq]
      exact hall
    have hnd' : (((done ++ [e]) ++ rest).map (fun x => x.path.comps)).Nodup := by
      rw [heq]
      exact hnd
    have hres := ih (done ++ [e]) hall' hnd' hpf'
    rw [heq] at hres
    rw [List.map_append] at hres
    simpa using hres

/-- The insertion loop succeeds on a walk with pairwise distinct names,
producing one row per entry in walk order. -/
theorem insertRows_nodup (z : Zlib) :
    ∀ (walk : List WalkEntry) (acc : List Row),
      (walk.map (fun e => e.path)).Nodup →
      (∀ r ∈ acc, ∀ e ∈ walk, r.name ≠ e.path) →
      insertRows z walk acc = (acc ++ walk.map (mkRow z), none) := by
  intro walk
  induction walk with
  | nil =>
    intro acc _ _
    simp [insertRows]
  | cons e rest ih =>
    intro acc hnd hacc
    rw [List.map_cons, List.nodup_cons] at hnd
    obtain ⟨hnotmem, hndrest⟩ := hnd
    have hany : acc.any (fun r => decide (r.name = (mkRow z e).name)) = false := by
      rw [List.any_eq_false]
      intro r hr
      rw [mkRow_name]
      simp only [decide_eq_true_eq]
      exact hacc r hr e (by simp)
    unfold insertRows
    simp only [hany, Bool.false_eq_true, if_false]
    rw [ih (acc ++ [mkRow z e]) hndrest ?_]
    · rw [List.append_assoc]
      rfl
    · intro r hr x hx
      rw [List.mem_append] at hr
      rcases hr with hr | hr
      · exact hacc r hr x (by simp [hx])
      · rw [List.mem_singleton] at hr
        subst hr
        rw [mkRow_name]
        intro heq
        exact hnotmem (by rw [heq]; exact List.mem_map_of_mem _ hx)

/-- C1 (corrected): creating an archive from walked objects that all have
relative, nonempty, pairwise-distinct names, are files or directories
(with mode type bits matching), have post-epoch modification times and
contents within the `i32` size limit, listed parents-before-children (as
`WalkDir` yields them), and then extracting it into a fresh destination,
reproduces under `dest` exactly the expected objects: the identical
relative names, byte-identical file contents, the permission bits of the
original modes, and the original modification times (one-second
resolution).  Each qualification is forced by the code: absolute names
are skipped at extraction (see the counterexample), duplicate names abort
creation on the primary key, a missing parent directory makes
`fs::create_dir`/`File::create` fail, Unsupported entries are skipped,
pre-epoch mtimes are stored as 0, and oversized contents fail the
decompressor's `i32` size conversion. -/
theorem create_extract_roundtrip (z : Zlib) (arch : String)
    (walk : List WalkEntry) (dest : List String)
    (hdest : dest ≠ [])
    (hgood : ∀ e ∈ walk, goodEntry e)
    (hnd : (walk.map (fun e => e.path.comps)).Nodup)
    (hpf : parentsFirst walk = true) :
    createOnDisk z [] arch walk = ([(arch, walk.map (mkRow z))], Except.ok ())
    ∧ extract z (walk.map (mkRow z)) dest []
        = (destChain dest ++ walk.map (expectedObj dest), Except.ok ()) := by
  have hndpaths : (walk.map (fun e => e.path)).Nodup := by
    refine List.Nodup.of_map SPath.comps ?_
    rw [List.map_map]
    exact hnd
  constructor
  · unfold createOnDisk
    rw [if_neg (by simp)]
    rw [insertRows_nodup z walk [] hndpaths (by simp)]
    simp
  · unfold extract
    rw [createDirAll_nil]
    have hres := extract_loop z dest hdest walk [] (by simpa using hgood)
      (by simpa using hnd) hpf
    simpa using hres

/-- Witness for C1 on a directory containing one file: the archive holds
both rows, and extraction reproduces the directory and the file with
their names, content, permission bits and mtimes. -/
theorem create_extract_roundtrip_witness :
    createOnDisk toyZlib [] "t.sqlar" sampleWalk
      = ([("t.sqlar", sampleWalk.map (mkRow toyZlib))], Except.ok ())
    ∧ extract toyZlib (sampleWalk.map (mkRow toyZlib)) ["out"] []
        = (destChain ["out"] ++ sampleWalk.map (expectedObj ["out"]),
           Except.ok ()) :=
  create_extract_roundtrip toyZlib "t.sqlar" sampleWalk ["out"]
    (by decide) (by decide) (by decide) (by decide)

/-- C1 counterexample: a single File root with the absolute name `/a` is
archived, but extraction skips it, so nothing but the destination root
exists afterwards — the file's name and content are not reproduced. -/
theorem create_extract_roundtrip_cx :
    createOnDisk toyZlib [] "t.sqlar"
        [⟨⟨true, ["a"]⟩, FileType.File, 0o100644, 5, [104, 105]⟩]
      = ([("t.sqlar",
          [⟨⟨true, ["a"]⟩, FileType.File, 0o100644, 5, [104, 105]⟩].map
            (mkRow toyZlib))], Except.ok ())
    ∧ extract toyZlib
        ([⟨⟨true, ["a"]⟩, FileType.File, 0o100644, 5, [104, 105]⟩].map
          (mkRow toyZlib)) ["out"] []
        = ([⟨["out"], ObjKind.dir, 0, 0⟩], Except.ok ()) := by
  decide

end Sqlar
